import Mathlib

/-!
A verification development for the gift-analyst bot
(`src/TgBot/tg_gift_analyst_bot.py`).  The Python source is shallowly
embedded in Lean: dictionaries become association lists, `Optional`
fields become `Option`, `datetime.fromisoformat` and the current clock
become explicit parameters (`parseTs : String → Option Int`,
`now : Int`, epoch seconds), and Python exceptions become `Except`.
Python truthiness on strings/ints (`if next_transfer_iso:`ns,
`if floor:`) is modelled explicitly (empty string and zero are falsy).
-/

namespace GiftBot

/-- One entry of the gift catalog, as built by `build_catalog`
(lines 124-143 of the source). -/
structure CatalogEntry where
  id : String
  title : String
  star_count : Option Int
  total_count : Option Int
  remaining_count : Option Int
  upgrade_star_count : Option Int
deriving DecidableEq, Repr

/-- One portfolio item, as built by `fetch_portfolio` (lines 146-196):
a tagged union over the `"regular"` and `"unique"` gift classes. -/
inductive GiftRecord where
  | regular (gift_id : Option String) (gift_title : String)
      (convert_star_count : Option Int) (can_be_upgraded : Bool)
      (prepaid_upgrade_star_count : Option Int) (text : Option String)
  | unique (gift_id : Option String) (gift_title : String)
      (rank : Option Int) (can_be_transferred : Bool)
      (transfer_star_count : Option Int) (next_transfer_date : Option String)
deriving DecidableEq, Repr

/-- A recommendation produced by the analysis (source lines 118-121). -/
structure Suggestion where
  title : String
  details : String
deriving DecidableEq, Repr

/-- A market quote (source class `MarketQuote`, lines 103-107); `ts`
is the fetch timestamp. -/
structure MarketQuote where
  gift_id : String
  floor_stars : Option Int
  last_trade_stars : Option Int
  ts : Int
deriving DecidableEq, Repr

/-- `fmt_stars` (source lines 90-91): renders a star amount, or an
em-dash when absent. -/
def fmt_stars : Option Int → String
  | some v => toString v ++ " ⭐"
  | none => "—"

/-- The stub quote source `fetch_market_quotes_example`
(source lines 110-112): every requested id maps to an empty quote. -/
def fetch_market_quotes_example (now : Int) (gift_ids : List String) :
    List (String × MarketQuote) :=
  gift_ids.map (fun gid => (gid, ⟨gid, none, none, now⟩))

/-- The `elif r.get("can_be_upgraded")` branch of the regular-gift loop
(source lines 224-234): look the gift up in the catalog and suggest an
upgrade when the catalog entry has an integer `upgrade_star_count`. -/
def suggest_upgrade (catalog : List (String × CatalogEntry))
    (gift_id : Option String) (gift_title : String)
    (can_be_upgraded : Bool) : List Suggestion :=
  if can_be_upgraded then
    match (match gift_id with
           | some gid => catalog.lookup gid
           | none => none) with
    | some g =>
      match g.upgrade_star_count with
      | some up =>
        [⟨"Подумать об апгрейде: " ++ gift_title,
          "Апгрейд до уникального стоит " ++ fmt_stars (some up) ++
            ". Оцените рынок перед апгрейдом."⟩]
      | none => []
    | none => []
  else []

/-- Body of the regular-gift loop of `analyze_portfolio`
(source lines 215-234): convert when `convert_star_count` is an integer
at or above the threshold, otherwise consider an upgrade. -/
def suggest_regular (catalog : List (String × CatalogEntry))
    (min_profit_stars : Int) (gift_id : Option String)
    (gift_title : String) (convert_star_count : Option Int)
    (can_be_upgraded : Bool) : List Suggestion :=
  match convert_star_count with
  | some conv =>
    if min_profit_stars ≤ conv then
      [⟨"Конвертировать в Stars: " ++ gift_title,
        "Можно получить " ++ fmt_stars (some conv) ++ " за обычный подарок."⟩]
    else suggest_upgrade catalog gift_id gift_title can_be_upgraded
  | none => suggest_upgrade catalog gift_id gift_title can_be_upgraded

/-- Body of the unique-gift loop of `analyze_portfolio`
(source lines 237-256).  `parseTs` stands for
`datetime.fromisoformat(...).timestamp()` (returning `none` when the
call raises) and `now` for `time.time()`.  An absent, empty or
unparseable `next_transfer_date` fails open (`can_transfer = True`).
The floor price is appended only when truthy (non-null and nonzero). -/
def suggest_unique (quotes : List (String × MarketQuote))
    (parseTs : String → Option Int) (now : Int)
    (gift_id : Option String) (gift_title : String)
    (next_transfer_date : Option String) : List Suggestion :=
  let can_transfer : Bool :=
    match next_transfer_date with
    | none => true
    | some iso =>
      if iso = "" then true
      else
        match parseTs iso with
        | none => true
        | some ts => decide (ts ≤ now)
  if can_transfer then
    let q : Option MarketQuote :=
      match gift_id with
      | some gid => if gid = "" then none else quotes.lookup gid
      | none => none
    let floor : Option Int :=
      match q with
      | some q => q.floor_stars
      | none => none
    let details : String :=
      "Можно переводить сейчас." ++
        (match floor with
         | some f =>
           if f ≠ 0 then " Ориентир по флоору: ~" ++ fmt_stars (some f) ++ "."
           else ""
         | none => "")
    [⟨"Уникальный готов к продаже: " ++ gift_title, details⟩]
  else []

/-- The suggestions accumulated by the two loops of `analyze_portfolio`
(source lines 208-256): all regular items first, then all unique items,
in portfolio order. -/
def raw_suggestions (catalog : List (String × CatalogEntry))
    (gifts : List GiftRecord) (quotes : List (String × MarketQuote))
    (min_profit_stars : Int) (parseTs : String → Option Int) (now : Int) :
    List Suggestion :=
  (gifts.map (fun g =>
    match g with
    | .regular gid title conv canUp _ _ =>
      suggest_regular catalog min_profit_stars gid title conv canUp
    | .unique _ _ _ _ _ _ => [])).flatten ++
  (gifts.map (fun g =>
    match g with
    | .unique gid title _ _ _ nd =>
      suggest_unique quotes parseTs now gid title nd
    | .regular _ _ _ _ _ _ => [])).flatten

/-- The placeholder emitted when no rule fires (source line 259). -/
def placeholder_suggestion : Suggestion :=
  ⟨"Пока без явных действий", "Ждём изменений в каталоге/портфеле."⟩

/-- The pure rule engine of `analyze_portfolio` (source lines 208-259):
evaluate the per-item rules and fall back to the single placeholder
when nothing fired. -/
def analyze_suggestions (catalog : List (String × CatalogEntry))
    (gifts : List GiftRecord) (quotes : List (String × MarketQuote))
    (min_profit_stars : Int) (parseTs : String → Option Int) (now : Int) :
    List Suggestion :=
  let suggestions :=
    raw_suggestions catalog gifts quotes min_profit_stars parseTs now
  if suggestions.isEmpty then [placeholder_suggestion] else suggestions

/-! ## Runtime state and the stateful `analyze_portfolio` flow -/

/-- `UserSettings` as stored by `watch_cmd` (source line 353):
`min_profit_stars` an int, `min_profit_pct` a float (modelled as `Rat`). -/
structure UserSettings where
  min_profit_stars : Int
  min_profit_pct : Rat
deriving DecidableEq, Repr

/-- A cached portfolio snapshot (source line 193). -/
structure Portfolio where
  total_count : Int
  gifts : List GiftRecord
  ts : Int
deriving DecidableEq, Repr

/-- The five maps of the process-wide `State` (source lines 62-68),
in the typed view the analysis/watch flow reads and writes. -/
structure Store where
  connections : List (String × String)
  chats : List (String × Int)
  settings : List (String × UserSettings)
  last_catalog : List (String × CatalogEntry)
  last_portfolio : List (String × Portfolio)
deriving DecidableEq, Repr

/-- In-memory state plus the persisted copy on disk; `STATE.save()`
copies the former over the latter. -/
structure Env where
  mem : Store
  disk : Store
deriving DecidableEq, Repr

/-- `STATE.save()` (source lines 78-82): atomically replace the file
with the current in-memory state. -/
def Env.save (e : Env) : Env := { e with disk := e.mem }

/-- Python dict assignment `d[k] = v`: replace any existing binding. -/
def dinsert {α : Type} (m : List (String × α)) (k : String) (v : α) :
    List (String × α) :=
  m.filter (fun p => p.1 != k) ++ [(k, v)]

/-- The dict comprehension over a catalog list (`{g["id"]: g for g in
catalog}`, source lines 141 and 201): later ids overwrite earlier ones. -/
def dictOf (l : List CatalogEntry) : List (String × CatalogEntry) :=
  l.foldl (fun m g => dinsert m g.id g) []

/-- `build_catalog` (source lines 124-143): `fetched` stands for the
result of the `get_available_gifts` network call; the catalog cache is
overwritten wholesale and the state is saved. -/
def build_catalog (e : Env) (fetched : List CatalogEntry) :
    List CatalogEntry × Env :=
  (fetched,
   Env.save { e with mem := { e.mem with last_catalog := dictOf fetched } })

/-- `fetch_portfolio` (source lines 146-196): with no business
connection for the user it returns an empty result without touching
state; otherwise (`fetchedGifts`/`fetchedTotal` standing for the
paginated `get_business_account_gifts` result) it caches the snapshot
and saves. -/
def fetch_portfolio (e : Env) (user_id : String)
    (fetchedGifts : List GiftRecord) (fetchedTotal : Int) (now : Int) :
    Portfolio × Env :=
  match e.mem.connections.lookup user_id with
  | none => (⟨0, [], 0⟩, e)
  | some _ =>
    let p : Portfolio := ⟨fetchedTotal, fetchedGifts, now⟩
    (p, Env.save
      { e with mem :=
        { e.mem with last_portfolio := dinsert e.mem.last_portfolio user_id p } })

/-- `analyze_portfolio` (source lines 199-261), state flow included:
use the cached catalog unless it is empty (falsy), in which case
`build_catalog` runs; use the cached portfolio for the user unless it
is absent, in which case `fetch_portfolio` runs; quotes come from the
stub; then the pure rules produce the suggestions. -/
def analyze_portfolio (e : Env) (user_id : String)
    (fetchedCatalog : List CatalogEntry) (fetchedGifts : List GiftRecord)
    (fetchedTotal : Int) (parseTs : String → Option Int) (now : Int) :
    List Suggestion × Env :=
  let catEnv : List (String × CatalogEntry) × Env :=
    if e.mem.last_catalog.isEmpty then
      let r := build_catalog e fetchedCatalog
      (dictOf r.1, r.2)
    else (e.mem.last_catalog, e)
  let pfEnv : Portfolio × Env :=
    match catEnv.2.mem.last_portfolio.lookup user_id with
    | some p => (p, catEnv.2)
    | none => fetch_portfolio catEnv.2 user_id fetchedGifts fetchedTotal now
  let unique_ids : List String :=
    pfEnv.1.gifts.filterMap (fun g =>
      match g with
      | .unique (some gid) _ _ _ _ _ => if gid = "" then none else some gid
      | _ => none)
  let quotes := fetch_market_quotes_example now unique_ids
  let settings : UserSettings :=
    match pfEnv.2.mem.settings.lookup user_id with
    | some s => s
    | none => ⟨0, 0⟩
  (analyze_suggestions catEnv.1 pfEnv.1.gifts quotes
     settings.min_profit_stars parseTs now,
   pfEnv.2)

/-! ## The `/watch` command and the periodic tick -/

/-- The job name `f"watch_{user.id}"` (source line 357). -/
def watchName (user_id : String) : String := "watch_" ++ user_id

/-- Python `str.isdigit()` restricted to ASCII digits: nonempty and
all digits. -/
def pyIsDigit (s : String) : Bool :=
  !s.data.isEmpty && s.data.all Char.isDigit

/-- Value of a string of decimal digits (Python `int` on a digit
string). -/
def digitsVal (cs : List Char) : Nat :=
  cs.foldl (fun a c => a * 10 + (c.toNat - 48)) 0

/-- Unsigned core of Python `float(s)`: digits with an optional single
decimal point; anything else (e.g. letters) fails. -/
def pyFloatCore (cs : List Char) : Option Rat :=
  let intPart := cs.takeWhile Char.isDigit
  let rest := cs.dropWhile Char.isDigit
  match rest with
  | [] => if intPart.isEmpty then none else some (digitsVal intPart : Rat)
  | '.' :: frac =>
    if frac.all Char.isDigit && !(intPart.isEmpty && frac.isEmpty) then
      some ((digitsVal intPart : Rat) +
        (digitsVal frac : Rat) / ((10 : Rat) ^ frac.length))
    else none
  | _ => none

/-- Python `float(s)` (the subset relevant here): optional sign, then
digits with an optional decimal point; `float("abc")` raises, modelled
as `none`. -/
def pyFloat (s : String) : Option Rat :=
  match s.data with
  | '-' :: rest => (pyFloatCore rest).map (fun r => -r)
  | '+' :: rest => pyFloatCore rest
  | cs => pyFloatCore cs

/-- The state `watch_cmd` touches: the per-user settings map, its
persisted copy, and the job queue (active job names, in order). -/
structure WatchEnv where
  settings : List (String × UserSettings)
  disk : List (String × UserSettings)
  jobs : List String
deriving DecidableEq, Repr

/-- `float(args[1]) if len(args) >= 2 else 0.0` (source line 351):
fails exactly when a second argument is present but unparseable. -/
def parse_min_pct (args : List String) : Except Unit Rat :=
  match args.get? 1 with
  | some a1 =>
    match pyFloat a1 with
    | some v => .ok v
    | none => .error ()
  | none => .ok 0

/-- `watch_cmd` (source lines 345-363).  `args[0]` defaults the star
threshold to 0 unless present and all digits; `float(args[1])` raises
on an unparseable second argument — modelled as `.error` carrying the
state as it stands at the raise point (no mutation has happened yet).
On success the settings are stored and saved, every job named
`watch_<uid>` is cancelled, and one new job of that name is armed. -/
def watch_cmd (env : WatchEnv) (user_id : String) (args : List String) :
    Except WatchEnv WatchEnv :=
  let min_stars : Int :=
    match args.get? 0 with
    | some a0 => if pyIsDigit a0 then (digitsVal a0.data : Int) else 0
    | none => 0
  match parse_min_pct args with
  | .error _ => .error env
  | .ok min_pct =>
    let settings' := dinsert env.settings user_id ⟨min_stars, min_pct⟩
    let name := watchName user_id
    let jobs' := env.jobs.filter (fun n => n != name) ++ [name]
    .ok ⟨settings', settings', jobs'⟩

/-- Number of active jobs carrying a given name. -/
def countName (jobs : List String) (name : String) : Nat :=
  jobs.countP (fun n => n == name)

/-- Message body built by `watch_tick` and `analyze_cmd`
(source lines 341 and 377). -/
def format_suggestions (l : List Suggestion) : String :=
  String.intercalate "\n\n"
    (l.map (fun s => "• <b>" ++ s.title ++ "</b>\n" ++ s.details))

/-- What a tick ended up doing. -/
inductive TickOutcome where
  | sent (msg : String)
  | silent
  | logged (err : String)
deriving DecidableEq, Repr

/-- The body inside `watch_tick`'s `try:` (source lines 373-378).
`analyzeRes` stands for `await analyze_portfolio(...)` (which may
raise), `chat` for `STATE.chats.get(str(user_id))`, and `sendRes` for
`await context.bot.send_message(...)` (which may raise).  Returns the
message sent, if any. -/
def watch_tick_body (analyzeRes : Except String (List Suggestion))
    (chat : Option Int) (sendRes : Except String Unit) :
    Except String (Option String) :=
  match analyzeRes with
  | .error e => .error e
  | .ok suggestions =>
    if suggestions.isEmpty then .ok none
    else
      match chat with
      | none => .ok none
      | some _ =>
        match sendRes with
        | .error e => .error e
        | .ok _ =>
          .ok (some ("Обновления по портфелю:\n\n" ++
            format_suggestions suggestions))

/-- `watch_tick` (source lines 370-381): the whole body runs under
`try: ... except Exception as e: print(...)`, so every error is caught
and logged and the handler returns normally. -/
def watch_tick (analyzeRes : Except String (List Suggestion))
    (chat : Option Int) (sendRes : Except String Unit) :
    Except String TickOutcome :=
  match watch_tick_body analyzeRes chat sendRes with
  | .ok (some m) => .ok (.sent m)
  | .ok none => .ok .silent
  | .error e => .ok (.logged e)

/-! ## JSON-level persistence (`State`, `save`, `load`) -/

/-- A JSON value, the payload type of the `Dict[str, Any]` fields of
the pydantic `State` class. -/
inductive JVal where
  | null
  | b (v : Bool)
  | i (v : Int)
  | s (v : String)
  | arr (vs : List JVal)
  | obj (fields : List (String × JVal))

/-- The persisted `State` (source lines 62-68), at the JSON level:
`connections : Dict[str, str]`, `chats : Dict[str, int]`,
`settings : Dict[str, Dict[str, Any]]`, and the two `Dict[str, Any]`
caches. -/
structure State where
  connections : List (String × String) := []
  chats : List (String × Int) := []
  settings : List (String × List (String × JVal)) := []
  last_catalog : List (String × JVal) := []
  last_portfolio : List (String × JVal) := []

def encodeStrMap (m : List (String × String)) : JVal :=
  .obj (m.map (fun p => (p.1, .s p.2)))

def encodeIntMap (m : List (String × Int)) : JVal :=
  .obj (m.map (fun p => (p.1, .i p.2)))

def encodeObjMap (m : List (String × List (String × JVal))) : JVal :=
  .obj (m.map (fun p => (p.1, .obj p.2)))

/-- `model_dump_json` (source line 81), at the JSON-value level: the
object with the five field maps. -/
def State.model_dump (st : State) : JVal :=
  .obj [("connections", encodeStrMap st.connections),
        ("chats", encodeIntMap st.chats),
        ("settings", encodeObjMap st.settings),
        ("last_catalog", .obj st.last_catalog),
        ("last_portfolio", .obj st.last_portfolio)]

/-- Map a decoding function over the values of a JSON object's field
list, failing if any value fails. -/
def decodeVals {β : Type} (f : JVal → Option β) :
    List (String × JVal) → Option (List (String × β))
  | [] => some []
  | (k, v) :: t =>
    match f v with
    | some w =>
      match decodeVals f t with
      | some r => some ((k, w) :: r)
      | none => none
    | none => none

def decodeStrMap : JVal → Option (List (String × String))
  | .obj l => decodeVals (fun v => match v with | .s w => some w | _ => none) l
  | _ => none

def decodeIntMap : JVal → Option (List (String × Int))
  | .obj l => decodeVals (fun v => match v with | .i w => some w | _ => none) l
  | _ => none

def decodeObjMap : JVal → Option (List (String × List (String × JVal)))
  | .obj l => decodeVals (fun v => match v with | .obj w => some w | _ => none) l
  | _ => none

def decodeAnyMap : JVal → Option (List (String × JVal))
  | .obj l => some l
  | _ => none

/-- Read one field of the snapshot object, with the pydantic default
when the key is missing. -/
def fieldOr {β : Type} (fields : List (String × JVal)) (k : String)
    (dec : JVal → Option β) (dflt : β) : Option β :=
  match fields.lookup k with
  | some v => dec v
  | none => some dflt

/-- Pydantic validation `State(**data)` (source line 75): each field
present must decode at its declared type; missing fields default. -/
def State.validate (j : JVal) : Option State :=
  match j with
  | .obj fields =>
    match fieldOr fields "connections" decodeStrMap [] with
    | none => none
    | some conns =>
      match fieldOr fields "chats" decodeIntMap [] with
      | none => none
      | some chats =>
        match fieldOr fields "settings" decodeObjMap [] with
        | none => none
        | some setts =>
          match fieldOr fields "last_catalog" decodeAnyMap [] with
          | none => none
          | some cat =>
            match fieldOr fields "last_portfolio" decodeAnyMap [] with
            | none => none
            | some pf => some ⟨conns, chats, setts, cat, pf⟩
  | _ => none

/-- `State.save` (source lines 78-82): write the dump, atomically
replacing whatever the file held. -/
def State.store (st : State) (_disk : Option JVal) : Option JVal :=
  some st.model_dump

/-- `State.load` (source lines 70-76): parse and validate the file if
it exists, else the default state. -/
def State.load (disk : Option JVal) : Option State :=
  match disk with
  | some j => State.validate j
  | none => some {}

/-! ## Theorems -/

/-- C1: for every RegularGift portfolio item whose `convertStarCount`
is present and at least `settings.minProfitStars`, the analysis emits
exactly one convert-suggestion for that item, citing the star amount,
and no upgrade-suggestion for it — regardless of `canBeUpgraded` or
the catalog entry. -/
theorem convert_rule_spec (catalog : List (String × CatalogEntry))
    (min_profit_stars : Int) (gift_id : Option String) (gift_title : String)
    (conv : Option Int) (can_be_upgraded : Bool) (c : Int)
    (h1 : conv = some c) (h2 : min_profit_stars ≤ c) :
    suggest_regular catalog min_profit_stars gift_id gift_title conv
        can_be_upgraded =
      [⟨"Конвертировать в Stars: " ++ gift_title,
        "Можно получить " ++ toString c ++ " ⭐ за обычный подарок."⟩] := by
  subst h1
  simp [suggest_regular, fmt_stars, h2, String.append_assoc]

theorem convert_rule_spec_witness :
    (some (150 : Int) = some 150 ∧ (100 : Int) ≤ 150) ∧
    suggest_regular [("g", ⟨"g", "T", none, none, none, some 25⟩)] 100
        (some "g") "T" (some 150) true =
      [⟨"Конвертировать в Stars: T",
        "Можно получить " ++ toString (150 : Int) ++ " ⭐ за обычный подарок."⟩] :=
  ⟨⟨rfl, by decide⟩,
   convert_rule_spec [("g", ⟨"g", "T", none, none, none, some 25⟩)] 100
     (some "g") "T" (some 150) true 150 rfl (by decide)⟩

/-- C2: for a RegularGift item whose convert condition fails
(`convertStarCount` absent or below threshold), an upgrade-suggestion
citing the catalog's `upgradeStarCount` is emitted exactly once when
`canBeUpgraded` holds and the catalog entry has one; in every other
case (not upgradable, no gift id, no catalog entry, or a null
`upgradeStarCount`) no suggestion at all is emitted for the item. -/
theorem upgrade_rule_spec (catalog : List (String × CatalogEntry))
    (min_profit_stars : Int) (gift_id : Option String) (gift_title : String)
    (conv : Option Int) (can_be_upgraded : Bool)
    (hconv : conv = none ∨ ∃ c, conv = some c ∧ c < min_profit_stars) :
    (∀ gid entry up, gift_id = some gid → catalog.lookup gid = some entry →
       entry.upgrade_star_count = some up → can_be_upgraded = true →
       suggest_regular catalog min_profit_stars gift_id gift_title conv
           can_be_upgraded =
         [⟨"Подумать об апгрейде: " ++ gift_title,
           "Апгрейд до уникального стоит " ++ toString up ++
             " ⭐. Оцените рынок перед апгрейдом."⟩]) ∧
    (can_be_upgraded = false →
       suggest_regular catalog min_profit_stars gift_id gift_title conv
         can_be_upgraded = []) ∧
    (gift_id = none →
       suggest_regular catalog min_profit_stars gift_id gift_title conv
         can_be_upgraded = []) ∧
    (∀ gid, gift_id = some gid → catalog.lookup gid = none →
       suggest_regular catalog min_profit_stars gift_id gift_title conv
         can_be_upgraded = []) ∧
    (∀ gid entry, gift_id = some gid → catalog.lookup gid = some entry →
       entry.upgrade_star_count = none →
       suggest_regular catalog min_profit_stars gift_id gift_title conv
         can_be_upgraded = []) := by
  have hred : suggest_regular catalog min_profit_stars gift_id gift_title conv
      can_be_upgraded =
      suggest_upgrade catalog gift_id gift_title can_be_upgraded := by
    rcases hconv with h | ⟨c, hc, hlt⟩
    · subst h; rfl
    · subst hc
      simp [suggest_regular, not_le.mpr hlt]
  rw [hred]
  refine ⟨?_, ?_, ?_, ?_, ?_⟩
  · intro gid entry up hgid hcat hup hcan
    subst hgid; subst hcan
    simp [suggest_upgrade, hcat, hup, fmt_stars, String.append_assoc]
  · intro h; subst h; rfl
  · intro h; subst h; simp [suggest_upgrade]
  · intro gid hgid hcat; subst hgid; simp [suggest_upgrade, hcat]
  · intro gid entry hgid hcat hup; subst hgid
    simp [suggest_upgrade, hcat, hup]

theorem upgrade_rule_spec_witness :
    ((none : Option Int) = none ∨ ∃ c, (none : Option Int) = some c ∧ c < 100) ∧
    suggest_regular [("g", ⟨"g", "T", none, none, none, some 25⟩)] 100
        (some "g") "T" none true =
      [⟨"Подумать об апгрейде: T",
        "Апгрейд до уникального стоит " ++ toString (25 : Int) ++
          " ⭐. Оцените рынок перед апгрейдом."⟩] ∧
    suggest_regular [("g", ⟨"g", "T", none, none, none, none⟩)] 100
        (some "g") "T" (some 50) true = [] :=
  ⟨Or.inl rfl,
   (upgrade_rule_spec [("g", ⟨"g", "T", none, none, none, some 25⟩)] 100
       (some "g") "T" none true (Or.inl rfl)).1 "g"
     ⟨"g", "T", none, none, none, some 25⟩ 25 rfl (by decide) rfl rfl,
   (upgrade_rule_spec [("g", ⟨"g", "T", none, none, none, none⟩)] 100
       (some "g") "T" (some 50) true
       (Or.inr ⟨50, rfl, by decide⟩)).2.2.2.2 "g"
     ⟨"g", "T", none, none, none, none⟩ rfl (by decide) rfl⟩

/-- C3: a UniqueGift item yields a ready-to-sell suggestion exactly
when transfer is possible now — `nextTransferDate` absent, its parsed
timestamp at or before the current time, or the date string
unparseable (fail open); a well-formed strictly-future date yields no
suggestion.  The hypothesis records that parsing the empty string
fails (as `datetime.fromisoformat("")` always raises). -/
theorem transfer_rule_spec (quotes : List (String × MarketQuote))
    (parseTs : String → Option Int) (now : Int) (gift_id : Option String)
    (gift_title : String) (nd : Option String)
    (hempty : parseTs "" = none) :
    ((∃ sug, suggest_unique quotes parseTs now gift_id gift_title nd = [sug]) ↔
      (nd = none ∨ ∃ iso, nd = some iso ∧
        (parseTs iso = none ∨ ∃ ts, parseTs iso = some ts ∧ ts ≤ now))) ∧
    (∀ iso ts, nd = some iso → parseTs iso = some ts → now < ts →
      suggest_unique quotes parseTs now gift_id gift_title nd = []) := by
  constructor
  · cases nd with
    | none => simp [suggest_unique]
    | some iso =>
      by_cases hiso : iso = ""
      · subst hiso
        simp [suggest_unique, hempty]
      · cases hts : parseTs iso with
        | none => simp [suggest_unique, hiso, hts]
        | some ts =>
          by_cases hle : ts ≤ now
          · simp [suggest_unique, hiso, hts, hle]
          · simp [suggest_unique, hiso, hts, hle]
  · intro iso ts hnd hts hlt
    subst hnd
    have hiso : iso ≠ "" := by
      intro h; subst h; rw [hempty] at hts; exact Option.noConfusion hts
    simp [suggest_unique, hiso, hts, not_le.mpr hlt]

theorem transfer_rule_spec_witness :
    ((fun _ : String => (none : Option Int)) "" = none) ∧
    (∃ sug, suggest_unique [] (fun _ => none) 0 (some "g") "T"
        (some "bad-date") = [sug]) ∧
    suggest_unique [] (fun s => if s = "f" then some 10 else none) 5
      (some "g") "T" (some "f") = [] :=
  ⟨rfl,
   ((transfer_rule_spec [] (fun _ => none) 0 (some "g") "T"
       (some "bad-date") rfl).1).mpr
     (Or.inr ⟨"bad-date", rfl, Or.inl rfl⟩),
   (transfer_rule_spec [] (fun s => if s = "f" then some 10 else none) 5
       (some "g") "T" (some "f") (by decide)).2 "f" 10 rfl (by decide)
     (by decide)⟩

/-- C4: when no rule fires (in particular for an empty portfolio) the
analysis returns exactly the single placeholder suggestion, and it
never returns an empty list. -/
theorem placeholder_spec (catalog : List (String × CatalogEntry))
    (quotes : List (String × MarketQuote)) (min_profit_stars : Int)
    (parseTs : String → Option Int) (now : Int) :
    (∀ gifts, raw_suggestions catalog gifts quotes min_profit_stars parseTs
        now = [] →
      analyze_suggestions catalog gifts quotes min_profit_stars parseTs now =
        [placeholder_suggestion]) ∧
    analyze_suggestions catalog [] quotes min_profit_stars parseTs now =
      [placeholder_suggestion] ∧
    (∀ gifts, analyze_suggestions catalog gifts quotes min_profit_stars
        parseTs now ≠ []) := by
  refine ⟨?_, ?_, ?_⟩
  · intro gifts h
    simp [analyze_suggestions, h]
  · simp [analyze_suggestions, raw_suggestions]
  · intro gifts
    unfold analyze_suggestions
    by_cases h : raw_suggestions catalog gifts quotes min_profit_stars parseTs
        now = []
    · simp [List.isEmpty_iff, h]
    · simp [List.isEmpty_iff, h]

theorem placeholder_spec_witness :
    raw_suggestions [] [] [] 0 (fun _ => none) 0 = [] ∧
    analyze_suggestions [] [] [] 0 (fun _ => none) 0 =
      [placeholder_suggestion] :=
  ⟨rfl, (placeholder_spec [] [] 0 (fun _ => none) 0).1 [] rfl⟩

/-- C5 counterexample: a quote with the non-null floor price `some 0`
is present for a ready-to-sell unique item, yet the emitted
suggestion's details are the bare "transfer now" text — the floor
value is not included (the source guards the append with Python
truthiness, `if floor:`, so a floor of 0 is dropped). -/
theorem floor_rule_counterexample :
    suggest_unique [("g1", ⟨"g1", some 0, none, 0⟩)] (fun _ => none) 0
        (some "g1") "T" none =
      [⟨"Уникальный готов к продаже: T", "Можно переводить сейчас."⟩] ∧
    ¬ ∃ pre post : String,
        "Можно переводить сейчас." = pre ++ toString (0 : Int) ++ post := by
  constructor
  · rfl
  · rintro ⟨pre, post, h⟩
    have hmem : '0' ∈ "Можно переводить сейчас.".data := by
      rw [h]
      have hd : (pre ++ toString (0 : Int) ++ post).data =
          pre.data ++ (toString (0 : Int)).data ++ post.data := by
        simp [String.data_append]
      rw [hd]
      exact List.mem_append_left _
        (List.mem_append_right _ (by decide))
    revert hmem
    decide

/-- C5 (amended): for a unique item that gets a ready-to-sell
suggestion, a quote with a *truthy* (non-null and nonzero) floor price
makes the details cite that floor; with no quote — or a quote whose
floor is null or zero — the details are exactly the bare "transfer
now" text, and the suggestion is still emitted. -/
theorem floor_rule_spec (quotes : List (String × MarketQuote))
    (parseTs : String → Option Int) (now : Int) (gid : String)
    (gift_title : String) (nd : Option String)
    (hgid : gid ≠ "")
    (hfire : suggest_unique quotes parseTs now (some gid) gift_title nd ≠ []) :
    (∀ q f, quotes.lookup gid = some q → q.floor_stars = some f → f ≠ 0 →
       suggest_unique quotes parseTs now (some gid) gift_title nd =
         [⟨"Уникальный готов к продаже: " ++ gift_title,
           "Можно переводить сейчас." ++ " Ориентир по флоору: ~" ++
             toString f ++ " ⭐."⟩]) ∧
    (quotes.lookup gid = none →
       suggest_unique quotes parseTs now (some gid) gift_title nd =
         [⟨"Уникальный готов к продаже: " ++ gift_title,
           "Можно переводить сейчас."⟩]) ∧
    (∀ q, quotes.lookup gid = some q →
       (q.floor_stars = none ∨ q.floor_stars = some 0) →
       suggest_unique quotes parseTs now (some gid) gift_title nd =
         [⟨"Уникальный готов к продаже: " ++ gift_title,
           "Можно переводить сейчас."⟩]) := by
  unfold suggest_unique at hfire ⊢
  revert hfire
  cases hct : (match nd with
    | none => true
    | some iso =>
      if iso = "" then true
      else
        match parseTs iso with
        | none => true
        | some ts => decide (ts ≤ now)) with
  | false => intro hfire; simp at hfire
  | true =>
    intro hfire
    refine ⟨?_, ?_, ?_⟩
    · intro q f hq hf hf0
      simp [hgid, hq, hf, hf0, fmt_stars, String.append_assoc]
      rw [← String.append_assoc]
      rfl
    · intro hq
      simp [hgid, hq]
    · intro q hq hfl
      rcases hfl with h | h <;> simp [hgid, hq, h]

theorem floor_rule_spec_witness :
    ("g1" : String) ≠ "" ∧
    suggest_unique [("g1", ⟨"g1", some 7, none, 0⟩)] (fun _ => none) 0
        (some "g1") "T" none =
      [⟨"Уникальный готов к продаже: T",
        "Можно переводить сейчас." ++ " Ориентир по флоору: ~" ++
          toString (7 : Int) ++ " ⭐."⟩] ∧
    suggest_unique [] (fun _ => none) 0 (some "g1") "T" none =
      [⟨"Уникальный готов к продаже: T", "Можно переводить сейчас."⟩] :=
  ⟨by decide,
   (floor_rule_spec [("g1", ⟨"g1", some 7, none, 0⟩)] (fun _ => none) 0 "g1"
       "T" none (by decide) (by decide)).1 ⟨"g1", some 7, none, 0⟩ 7 rfl rfl
     (by decide),
   (floor_rule_spec [] (fun _ => none) 0 "g1" "T" none (by decide)
       (by decide)).2.1 rfl⟩

/-- After cancelling every job named `name` and appending one fresh
job of that name, exactly one job carries the name. -/
theorem countName_replace (jobs : List String) (name : String) :
    countName (jobs.filter (fun n => n != name) ++ [name]) name = 1 := by
  induction jobs with
  | nil => simp [countName, List.countP_cons]
  | cons hd tl ih =>
    by_cases h : hd = name
    · subst h
      simp only [countName, List.filter_cons, bne_self_eq_false,
        Bool.false_eq_true, if_false]
      exact ih
    · simp only [countName, List.filter_cons, List.countP_cons] at ih ⊢
      simp [bne_iff_ne, h, ih]

/-- C6: every successful `/watch` invocation first cancels all timers
keyed by the user and then arms one new timer, so afterwards exactly
one active timer exists for that user — whatever the queue held
before, in particular after repeated invocations. -/
theorem watch_single_timer (env : WatchEnv) (user_id : String)
    (args : List String) (env' : WatchEnv)
    (h : watch_cmd env user_id args = .ok env') :
    countName env'.jobs (watchName user_id) = 1 := by
  unfold watch_cmd at h
  cases hp : parse_min_pct args with
  | error u =>
    rw [hp] at h
    exact Except.noConfusion h
  | ok min_pct =>
    rw [hp] at h
    simp only [Except.ok.injEq] at h
    subst h
    exact countName_replace env.jobs (watchName user_id)

theorem watch_single_timer_witness :
    countName
      (WatchEnv.jobs ⟨[("7", ⟨100, 0⟩)], [("7", ⟨100, 0⟩)],
        ["other", "watch_7"]⟩) (watchName "7") = 1 :=
  watch_single_timer ⟨[], [], ["watch_7", "watch_7", "other"]⟩ "7" ["100"]
    ⟨[("7", ⟨100, 0⟩)], [("7", ⟨100, 0⟩)], ["other", "watch_7"]⟩ rfl

/-- C7: every error inside a watch tick (analysis/fetch failure or
message-send failure) is caught by the tick's handler: the tick always
returns normally, and a failing analysis in particular is merely
logged. -/
theorem tick_never_raises :
    (∀ (analyzeRes : Except String (List Suggestion)) (chat : Option Int)
       (sendRes : Except String Unit),
       (watch_tick analyzeRes chat sendRes).isOk = true) ∧
    (∀ (e : String) (chat : Option Int) (sendRes : Except String Unit),
       watch_tick (.error e) chat sendRes = .ok (.logged e)) := by
  constructor
  · intro a c s
    unfold watch_tick
    cases hwb : watch_tick_body a c s with
    | error e => rfl
    | ok o => cases o with
      | none => rfl
      | some m => rfl
  · intro e c s
    rfl

/-- C8 counterexample: invoking the analysis on a state with an empty
catalog cache changes the persisted state — the catalog fallback fetch
runs, caches its result and saves (source lines 201 and 141-143), so
the state after the call differs from the state before it. -/
theorem analyze_mutates_counterexample :
    (analyze_portfolio ⟨⟨[], [], [], [], []⟩, ⟨[], [], [], [], []⟩⟩ "1"
        [⟨"c", "T", some 1, none, none, some 2⟩] [] 0 (fun _ => none) 0).2 ≠
      ⟨⟨[], [], [], [], []⟩, ⟨[], [], [], [], []⟩⟩ := by
  decide

/-- C8 (amended): when the catalog cache is nonempty and a portfolio
snapshot is cached for the user, the analysis triggers no fetch and
leaves the whole state (memory and disk) unchanged; only on a cache
miss does it fetch and cache the missing data. -/
theorem analyze_pure_on_cache_hit (e : Env) (user_id : String)
    (fetchedCatalog : List CatalogEntry) (fetchedGifts : List GiftRecord)
    (fetchedTotal : Int) (parseTs : String → Option Int) (now : Int)
    (p : Portfolio)
    (hcat : e.mem.last_catalog ≠ [])
    (hpf : e.mem.last_portfolio.lookup user_id = some p) :
    (analyze_portfolio e user_id fetchedCatalog fetchedGifts fetchedTotal
      parseTs now).2 = e := by
  unfold analyze_portfolio
  simp [List.isEmpty_iff, hcat, hpf]

theorem analyze_pure_on_cache_hit_witness :
    (Store.last_catalog ⟨[], [], [],
        [("c", ⟨"c", "T", none, none, none, none⟩)], [("1", ⟨0, [], 0⟩)]⟩ ≠ [] ∧
     (Store.last_portfolio ⟨[], [], [],
        [("c", ⟨"c", "T", none, none, none, none⟩)],
        [("1", ⟨0, [], 0⟩)]⟩).lookup "1" = some ⟨0, [], 0⟩) ∧
    (analyze_portfolio
        ⟨⟨[], [], [], [("c", ⟨"c", "T", none, none, none, none⟩)],
          [("1", ⟨0, [], 0⟩)]⟩,
         ⟨[], [], [], [("c", ⟨"c", "T", none, none, none, none⟩)],
          [("1", ⟨0, [], 0⟩)]⟩⟩ "1" [] [] 0 (fun _ => none) 0).2 =
      ⟨⟨[], [], [], [("c", ⟨"c", "T", none, none, none, none⟩)],
        [("1", ⟨0, [], 0⟩)]⟩,
       ⟨[], [], [], [("c", ⟨"c", "T", none, none, none, none⟩)],
        [("1", ⟨0, [], 0⟩)]⟩⟩ :=
  ⟨⟨by decide, rfl⟩,
   analyze_pure_on_cache_hit
     ⟨⟨[], [], [], [("c", ⟨"c", "T", none, none, none, none⟩)],
       [("1", ⟨0, [], 0⟩)]⟩,
      ⟨[], [], [], [("c", ⟨"c", "T", none, none, none, none⟩)],
       [("1", ⟨0, [], 0⟩)]⟩⟩ "1" [] [] 0 (fun _ => none) 0 ⟨0, [], 0⟩
     (by decide) rfl⟩

theorem decodeVals_encode_s (m : List (String × String)) :
    decodeVals (fun v => match v with | .s w => some w | _ => none)
      (m.map (fun p => (p.1, JVal.s p.2))) = some m := by
  induction m with
  | nil => rfl
  | cons hd tl ih => simp [decodeVals, ih]

theorem decodeVals_encode_i (m : List (String × Int)) :
    decodeVals (fun v => match v with | .i w => some w | _ => none)
      (m.map (fun p => (p.1, JVal.i p.2))) = some m := by
  induction m with
  | nil => rfl
  | cons hd tl ih => simp [decodeVals, ih]

theorem decodeVals_encode_obj (m : List (String × List (String × JVal))) :
    decodeVals (fun v => match v with | .obj w => some w | _ => none)
      (m.map (fun p => (p.1, JVal.obj p.2))) = some m := by
  induction m with
  | nil => rfl
  | cons hd tl ih => simp [decodeVals, ih]

/-- C9: saving a state snapshot and loading it back yields the same
snapshot — all five maps (connections, chats, settings, catalog cache,
portfolio cache) read back structurally equal, whatever the file held
before. -/
theorem state_roundtrip (st : State) (disk : Option JVal) :
    State.load (State.store st disk) = some st := by
  obtain ⟨conns, chats, setts, cat, pf⟩ := st
  simp [State.store, State.load, State.model_dump, State.validate, fieldOr,
    List.lookup, encodeStrMap, encodeIntMap, encodeObjMap, decodeStrMap,
    decodeIntMap, decodeObjMap, decodeAnyMap, decodeVals_encode_s,
    decodeVals_encode_i, decodeVals_encode_obj]

/-- Looking up a key right after a Python-style dict assignment of
that key returns the assigned value. -/
theorem lookup_dinsert {α : Type} (m : List (String × α)) (k : String)
    (v : α) : (dinsert m k v).lookup k = some v := by
  induction m with
  | nil => simp [dinsert, List.lookup]
  | cons hd tl ih =>
    by_cases h : hd.1 = k
    · simp only [dinsert, List.filter_cons, h, bne_self_eq_false,
        Bool.false_eq_true, if_false]
      simpa [dinsert] using ih
    · simp only [dinsert, List.filter_cons, bne_iff_ne, ne_eq, h,
        not_false_eq_true, if_true, List.cons_append, List.lookup]
      have : (k == hd.1) = false := beq_eq_false_iff_ne.mpr (Ne.symm h)
      simpa [this, dinsert] using ih

/-- C10: `/watch` with an unparseable second argument raises before
any mutation, leaving settings, the persisted file and the job queue
exactly as they were; a missing or non-digit first argument instead
silently defaults `min_profit_stars` to 0 and the command succeeds. -/
theorem watch_parse_atomicity (env : WatchEnv) (user_id : String) :
    (∀ a0 a1 rest, pyFloat a1 = none →
       watch_cmd env user_id (a0 :: a1 :: rest) = .error env) ∧
    (∀ a0, pyIsDigit a0 = false →
       ∃ env', watch_cmd env user_id [a0] = .ok env' ∧
         env'.settings.lookup user_id = some ⟨0, 0⟩) ∧
    (∃ env', watch_cmd env user_id [] = .ok env' ∧
       env'.settings.lookup user_id = some ⟨0, 0⟩) := by
  refine ⟨?_, ?_, ?_⟩
  · intro a0 a1 rest h
    have hp : parse_min_pct (a0 :: a1 :: rest) = .error () := by
      simp [parse_min_pct, h]
    unfold watch_cmd
    simp [hp]
  · intro a0 h
    refine ⟨⟨dinsert env.settings user_id ⟨0, 0⟩,
      dinsert env.settings user_id ⟨0, 0⟩,
      env.jobs.filter (fun n => n != watchName user_id) ++
        [watchName user_id]⟩, ?_, ?_⟩
    · unfold watch_cmd
      simp [parse_min_pct, h]
    · exact lookup_dinsert env.settings user_id ⟨0, 0⟩
  · refine ⟨⟨dinsert env.settings user_id ⟨0, 0⟩,
      dinsert env.settings user_id ⟨0, 0⟩,
      env.jobs.filter (fun n => n != watchName user_id) ++
        [watchName user_id]⟩, rfl, ?_⟩
    exact lookup_dinsert env.settings user_id ⟨0, 0⟩

theorem watch_parse_atomicity_witness :
    pyFloat "abc" = none ∧
    watch_cmd ⟨[("7", ⟨5, 5⟩)], [("7", ⟨5, 5⟩)], ["watch_7"]⟩ "7"
        ["100", "abc"] =
      .error ⟨[("7", ⟨5, 5⟩)], [("7", ⟨5, 5⟩)], ["watch_7"]⟩ ∧
    pyIsDigit "abc" = false ∧
    (∃ env', watch_cmd ⟨[], [], []⟩ "7" ["abc"] = .ok env' ∧
       env'.settings.lookup "7" = some ⟨0, 0⟩) ∧
    (∃ env', watch_cmd ⟨[], [], []⟩ "7" [] = .ok env' ∧
       env'.settings.lookup "7" = some ⟨0, 0⟩) :=
  ⟨rfl,
   (watch_parse_atomicity ⟨[("7", ⟨5, 5⟩)], [("7", ⟨5, 5⟩)],
       ["watch_7"]⟩ "7").1 "100" "abc" [] rfl,
   rfl,
   (watch_parse_atomicity ⟨[], [], []⟩ "7").2.1 "abc" rfl,
   (watch_parse_atomicity ⟨[], [], []⟩ "7").2.2⟩

end GiftBot
